import Mathlib

/-!
# Verification of the pystrano deployment orchestrator

A shallow embedding of the pystrano configuration model
(`pystrano/config/models.py`), configuration loader
(`pystrano/config/loader.py`), remote operation library
(`pystrano/core.py`) and deploy orchestrator (`pystrano/deploy.py`),
together with proofs about the properties the specification claims.

Python runtime values that flow through the pydantic validators are
modelled by the inductive `PyVal`; Python strings are Lean `String`s;
machine integers are unbounded `Int` (Python ints are unbounded);
Python floats that reach the validators are modelled as rationals
(`bool(f)` and `int(f)` only depend on the rational value, and every
literal appearing in configs is exactly representable).  Fallible
validation returns `Except`.
-/

set_option maxRecDepth 40000

namespace Pystrano

/-- A Python runtime value, as it can appear in a parsed YAML document or
in the keyword arguments of `PystranoConfig`. -/
inductive PyVal where
  | none
  | bool (b : Bool)
  | int (n : Int)
  | float (q : Rat)
  | str (s : String)
  | list (xs : List PyVal)
  | dict (xs : List (String × PyVal))
deriving Repr, Inhabited

/-- A Python exception relevant to the config layer: pydantic wraps
`ValueError` raised in validators into a `ValidationError` (itself a
`ValueError`), while `TypeError` propagates uncaught. -/
inductive PyErr where
  | valueError (msg : String)
  | typeError (msg : String)
deriving DecidableEq, Repr

deriving instance DecidableEq for Except

/-- A Python `dict[str, Any]`, in insertion order. -/
abbrev RawMap := List (String × PyVal)

/-- First value bound to `key`, like a Python dict lookup. -/
def rawGet (m : RawMap) (key : String) : Option PyVal :=
  (m.find? (fun kv => kv.1 == key)).map (·.2)

/-- Python `base.update(data)` / `{**base, **data}`: keys of `base` keep
their position but take the overriding value; keys only in `data` are
appended in order. -/
def dictUpdate (base data : RawMap) : RawMap :=
  base.map (fun kv =>
    match rawGet data kv.1 with
    | some v => (kv.1, v)
    | Option.none => kv)
  ++ data.filter (fun kv => !(base.any (fun b => b.1 == kv.1)))

/-- Python `str(value)` for the value shapes the validators stringify. -/
def pyStr : PyVal → String
  | .none => "None"
  | .bool b => if b then "True" else "False"
  | .int n => toString n
  | .float _ => "<float>"
  | .str s => s
  | .list _ => "<list>"
  | .dict _ => "<dict>"

/-- Python `repr(value)` as used in f-string `{value!r}` error messages. -/
def pyRepr : PyVal → String
  | .str s => "\x27" ++ s ++ "\x27"
  | v => pyStr v

/-- Digits of a Python int literal body, allowing single `_` separators
between digits (as `int("1_0")` does). Returns the digit list. -/
def intDigits : List Char → Option (List Char)
  | [] => Option.none
  | [c] => if c.isDigit then some [c] else Option.none
  | c :: '_' :: d :: rest =>
      if c.isDigit then (intDigits (d :: rest)).map (c :: ·) else Option.none
  | c :: rest => if c.isDigit then (intDigits rest).map (c :: ·) else Option.none

/-- Numeric value of a digit list. -/
def digitsToNat (l : List Char) : Nat :=
  l.foldl (fun a c => a * 10 + (c.toNat - 48)) 0

/-- Python `str.strip()` with no argument: drop leading and trailing
whitespace. -/
def pyStrip (s : String) : String :=
  ⟨((s.data.dropWhile Char.isWhitespace).reverse.dropWhile Char.isWhitespace).reverse⟩

/-- Python `int(s)` on a string: optional surrounding whitespace, optional
sign, decimal digits (with `_` separators); `Option.none` models the
`ValueError` raise. -/
def pyParseInt (s : String) : Option Int :=
  match (pyStrip s).data with
  | '+' :: rest => (intDigits rest).map (fun l => (digitsToNat l : Int))
  | '-' :: rest => (intDigits rest).map (fun l => -(digitsToNat l : Int))
  | l => (intDigits l).map (fun l => (digitsToNat l : Int))

/-- Python `int(value)` truncation of a float toward zero. -/
def ratTrunc (q : Rat) : Int := q.num.tdiv q.den

/-- Python `int(value)`; `Option.none` models the `TypeError`/`ValueError`
raise on `None`, strings that do not parse, and containers. -/
def pyToInt : PyVal → Option Int
  | .none => Option.none
  | .bool b => some (if b then 1 else 0)
  | .int n => some n
  | .float q => some (ratTrunc q)
  | .str s => pyParseInt s
  | .list _ => Option.none
  | .dict _ => Option.none

/-- Python `str.lower()` (ASCII). -/
def pyLower (s : String) : String := ⟨s.data.map Char.toLower⟩

/-- Python `str.split(c)` on a one-character separator (empty parts
kept, as Python does). -/
def pySplitOnChar (c : Char) (s : String) : List String :=
  (s.data.splitOn c).map (fun l => ⟨l⟩)

/-- Python `str.split()` with no separator: split on whitespace runs,
dropping empty parts. -/
def pySplitWs (s : String) : List String :=
  ((s.data.splitOnP Char.isWhitespace).map (fun l => (⟨l⟩ : String))).filter
    (fun p => p != "")

/-- Python `str.replace(";", " ")`. -/
def pyReplaceSemicolon (s : String) : String :=
  ⟨s.data.map (fun c => if c == ';' then ' ' else c)⟩

/-- Python truthiness of an optional-string field (`None` and `""` are
falsy). -/
def truthyS : Option String → Bool
  | Option.none => false
  | some s => s != ""

/-- Python truthiness of an optional-int field (`None` and `0` are
falsy). -/
def truthyI : Option Int → Bool
  | Option.none => false
  | some n => n != 0

/-- Rendering of an optional-string field inside an f-string
(`f"{None}"` is `"None"`). -/
def optS : Option String → String
  | Option.none => "None"
  | some s => s

/-- `posixpath.isabs`. -/
def pyIsAbs (s : String) : Bool := s.data.head? == some '/'

/-- `posixpath.join(a, b)`: `b` wins if absolute, otherwise it is
appended, inserting `/` unless `a` is empty or already ends in `/`. -/
def pyPathJoin (a b : String) : String :=
  if pyIsAbs b then b
  else if a == "" || a.data.getLast? == some '/' then a ++ b
  else a ++ "/" ++ b

/-- `posixpath.basename`: the part after the last `/`. -/
def pyBasename (s : String) : String :=
  ((pySplitOnChar '/' s).getLast?).getD ""

/-- A character `shlex.quote` treats as safe: word characters (ASCII)
plus at-sign, percent, plus, equals, colon, comma, dot, slash, dash. -/
def shlexSafe (c : Char) : Bool :=
  c.isAlphanum || c == '_' || c == '@' || c == '%' || c == '+' || c == '='
    || c == ':' || c == ',' || c == '.' || c == '/' || c == '-'

/-- `shlex.quote`. -/
def shlexQuote (s : String) : String :=
  if s == "" then "\x27\x27"
  else if s.data.all shlexSafe then s
  else "\x27" ++ (s.replace "\x27" "\x27\"\x27\"\x27") ++ "\x27"

/-! ## The configuration model (`pystrano/config/models.py`) -/

/-- `PystranoConfig` (`models.py`): one deployment server configuration,
with the source's field names, types and defaults.  `dict[str, str]`
becomes an insertion-ordered association list. -/
structure PystranoConfig where
  source_code_url : Option String := Option.none
  project_root : Option String := Option.none
  project_user : Option String := Option.none
  venv_dir : Option String := Option.none
  keep_releases : Int := 5
  system_packages : List String := []
  env_file : Option String := Option.none
  ssh_known_hosts : List String := []
  service_file : Option String := Option.none
  secrets : List String := []
  branch : Option String := Option.none
  revision : Option String := Option.none
  clone_depth : Option Int := some 1
  host : Option String := Option.none
  port : Int := 22
  run_migrations : Bool := false
  collect_static_files : Bool := false
  releases_dir : Option String := Option.none
  current_dir : Option String := Option.none
  shared_dir : Option String := Option.none
  python_path : Option String := Option.none
  env_vars : List (String × String) := []
  service_file_name : Option String := Option.none
deriving DecidableEq, Repr, Inhabited

/-- `_split_semicolon_values`: split on `;`, then on line breaks, strip
every part and drop the empty ones. -/
def split_semicolon_values (value : String) : List String :=
  (((pySplitOnChar ';' value).flatMap (fun item => pySplitOnChar '\n' item)).map
      pyStrip).filter (fun part => part != "")

/-- Python `type(value).__name__`. -/
def pyTypeName : PyVal → String
  | .none => "NoneType"
  | .bool _ => "bool"
  | .int _ => "int"
  | .float _ => "float"
  | .str _ => "str"
  | .list _ => "list"
  | .dict _ => "dict"

/-- `_parse_semicolon_list` (validator for `ssh_known_hosts` and
`secrets`): `None` becomes `[]`, strings are split, lists are
stringified/stripped/filtered, anything else raises `ValueError`. -/
def parse_semicolon_list (value : PyVal) : Except PyErr (List String) :=
  match value with
  | .none => .ok []
  | .str s => .ok (split_semicolon_values s)
  | .list xs =>
      .ok (((xs.map (fun item => pyStrip (pyStr item))).filter (fun s => s != "")))
  | v => .error (.valueError ("Expected a string or list, got " ++ pyTypeName v))

/-- `_parse_system_packages`: like the semicolon list, but strings are
split on `;`-replaced-by-space and whitespace. -/
def parse_system_packages (value : PyVal) : Except PyErr (List String) :=
  match value with
  | .none => .ok []
  | .str s => .ok (pySplitWs (pyReplaceSemicolon s))
  | .list xs =>
      .ok (((xs.map (fun item => pyStrip (pyStr item))).filter (fun s => s != "")))
  | v => .error (.valueError ("Expected a string or list, got " ++ pyTypeName v))

/-- `_parse_bool` (validator for `run_migrations` and
`collect_static_files`): `None` is false, booleans pass through, numbers
take their truthiness, everything else is stringified, stripped and
lowercased and compared against the accepted tokens. -/
def parse_bool (value : PyVal) : Except PyErr Bool :=
  match value with
  | .none => .ok false
  | .bool b => .ok b
  | .int n => .ok (n != 0)
  | .float q => .ok (q != 0)
  | v =>
      let normalized := pyLower (pyStrip (pyStr v))
      if normalized ∈ ["1", "true", "yes", "on"] then .ok true
      else if normalized ∈ ["0", "false", "no", "off", ""] then .ok false
      else .error (.valueError ("Invalid boolean value: " ++ pyRepr v))

/-- The guard `value is None or value == ""` shared by the port and
clone-depth validators (among the value shapes a config can hold, only
the empty string itself compares equal to `""`). -/
def isNoneOrEmptyStr : PyVal → Bool
  | .none => true
  | .str s => s == ""
  | _ => false

/-- `_parse_port`: `None`/`""` default to 22, otherwise `int(value)`
(raising `ValueError` on bad strings and `TypeError` on containers). -/
def parse_port (value : PyVal) : Except PyErr Int :=
  if isNoneOrEmptyStr value then .ok 22
  else match pyToInt value with
    | some n => .ok n
    | Option.none =>
        match value with
        | .str s => .error (.valueError ("invalid literal for int: " ++ pyRepr (.str s)))
        | v => .error (.typeError ("int argument must not be " ++ pyRepr v))

/-- `_parse_clone_depth`: `None`/`""` default to 1; an `int(value)`
failure (caught `TypeError`/`ValueError`) or a non-positive parse give
`None` (absent), never an error. -/
def parse_clone_depth (value : PyVal) : Option Int :=
  if isNoneOrEmptyStr value then some 1
  else match pyToInt value with
    | Option.none => Option.none
    | some parsed => if parsed ≤ 0 then Option.none else some parsed

/-- `_apply_revision_rules` (`model_validator(mode="after")`): a truthy
`revision` forces `clone_depth` to `None`. -/
def apply_revision_rules (c : PystranoConfig) : PystranoConfig :=
  if truthyS c.revision && c.clone_depth != Option.none then
    { c with clone_depth := Option.none }
  else c

/-- pydantic validation of a `str | None` field. -/
def vStrOpt (field : String) (v : PyVal) : Except PyErr (Option String) :=
  match v with
  | .none => .ok Option.none
  | .str s => .ok (some s)
  | _ => .error (.valueError (field ++ ": Input should be a valid string"))

/-- pydantic lax validation of an `int` field (rejects bools, accepts
integral strings and floats). -/
def vInt (field : String) (v : PyVal) : Except PyErr Int :=
  match v with
  | .int n => .ok n
  | .str s =>
      match pyParseInt s with
      | some n => .ok n
      | Option.none =>
          .error (.valueError (field ++ ": Input should be a valid integer"))
  | .float q =>
      if q.den == 1 then .ok q.num
      else .error (.valueError (field ++ ": Input should be a valid integer"))
  | _ => .error (.valueError (field ++ ": Input should be a valid integer"))

/-- pydantic validation of the `dict[str, str]` field `env_vars`. -/
def vDictStr (field : String) (v : PyVal) : Except PyErr (List (String × String)) :=
  match v with
  | .dict kvs =>
      kvs.mapM (fun kv =>
        match kv.2 with
        | .str s => .ok (kv.1, s)
        | _ => .error (.valueError (field ++ ": Input should be a valid string")))
  | _ => .error (.valueError (field ++ ": Input should be a valid dictionary"))

/-- Run a field validator against the payload entry for `field`, using
the declared `dflt` when the key is absent. -/
def vField (payload : RawMap) (field : String) (dflt : α)
    (validate : PyVal → Except PyErr α) : Except PyErr α :=
  match rawGet payload field with
  | Option.none => .ok dflt
  | some v => validate v

/-- Prefix a raw `ValueError` from a field validator with the field name,
as pydantic's error locations (`loc: msg`) do. -/
def atField (field : String) : Except PyErr α → Except PyErr α
  | .error (.valueError msg) => .error (.valueError (field ++ ": " ++ msg))
  | r => r

/-- The declared field names of `PystranoConfig`, in declaration order. -/
def knownFields : List String :=
  ["source_code_url", "project_root", "project_user", "venv_dir",
   "keep_releases", "system_packages", "env_file", "ssh_known_hosts",
   "service_file", "secrets", "branch", "revision", "clone_depth",
   "host", "port", "run_migrations", "collect_static_files",
   "releases_dir", "current_dir", "shared_dir", "python_path",
   "env_vars", "service_file_name"]

/-- Field-by-field validation of a payload, in declaration order, with
the source's defaults. -/
def validateFields (payload : RawMap) : Except PyErr PystranoConfig := do
  let source_code_url ← vField payload "source_code_url" Option.none (vStrOpt "source_code_url")
  let project_root ← vField payload "project_root" Option.none (vStrOpt "project_root")
  let project_user ← vField payload "project_user" Option.none (vStrOpt "project_user")
  let venv_dir ← vField payload "venv_dir" Option.none (vStrOpt "venv_dir")
  let keep_releases ← vField payload "keep_releases" 5 (vInt "keep_releases")
  let system_packages ← vField payload "system_packages" [] (atField "system_packages" ∘ parse_system_packages)
  let env_file ← vField payload "env_file" Option.none (vStrOpt "env_file")
  let ssh_known_hosts ← vField payload "ssh_known_hosts" [] (atField "ssh_known_hosts" ∘ parse_semicolon_list)
  let service_file ← vField payload "service_file" Option.none (vStrOpt "service_file")
  let secrets ← vField payload "secrets" [] (atField "secrets" ∘ parse_semicolon_list)
  let branch ← vField payload "branch" Option.none (vStrOpt "branch")
  let revision ← vField payload "revision" Option.none (vStrOpt "revision")
  let clone_depth := match rawGet payload "clone_depth" with
    | Option.none => some 1
    | some v => parse_clone_depth v
  let host ← vField payload "host" Option.none (vStrOpt "host")
  let port ← vField payload "port" 22 (atField "port" ∘ parse_port)
  let run_migrations ← vField payload "run_migrations" false (atField "run_migrations" ∘ parse_bool)
  let collect_static_files ← vField payload "collect_static_files" false (atField "collect_static_files" ∘ parse_bool)
  let releases_dir ← vField payload "releases_dir" Option.none (vStrOpt "releases_dir")
  let current_dir ← vField payload "current_dir" Option.none (vStrOpt "current_dir")
  let shared_dir ← vField payload "shared_dir" Option.none (vStrOpt "shared_dir")
  let python_path ← vField payload "python_path" Option.none (vStrOpt "python_path")
  let env_vars ← vField payload "env_vars" [] (atField "env_vars" ∘ vDictStr "env_vars")
  let service_file_name ← vField payload "service_file_name" Option.none (vStrOpt "service_file_name")
  pure { source_code_url, project_root, project_user, venv_dir,
         keep_releases, system_packages, env_file, ssh_known_hosts,
         service_file, secrets, branch, revision, clone_depth, host,
         port, run_migrations, collect_static_files, releases_dir,
         current_dir, shared_dir, python_path, env_vars,
         service_file_name }

/-- `PystranoConfig.model_validate` / `PystranoConfig(**payload)`:
reject unknown keys (`extra="forbid"`), validate every field, then run
the `mode="after"` model validator `_apply_revision_rules`. -/
def model_validate (payload : RawMap) : Except PyErr PystranoConfig :=
  match payload.find? (fun kv => !(knownFields.contains kv.1)) with
  | some kv => .error (.valueError (kv.1 ++ ": Extra inputs are not permitted"))
  | Option.none => do
      let c ← validateFields payload
      pure (apply_revision_rules c)

/-- `PystranoConfig.model_dump(mode="python")`: each field back to a
Python value, in declaration order. -/
def model_dump (c : PystranoConfig) : RawMap :=
  let dumpS : Option String → PyVal := fun o =>
    match o with
    | Option.none => .none
    | some s => .str s
  [("source_code_url", dumpS c.source_code_url),
   ("project_root", dumpS c.project_root),
   ("project_user", dumpS c.project_user),
   ("venv_dir", dumpS c.venv_dir),
   ("keep_releases", .int c.keep_releases),
   ("system_packages", .list (c.system_packages.map .str)),
   ("env_file", dumpS c.env_file),
   ("ssh_known_hosts", .list (c.ssh_known_hosts.map .str)),
   ("service_file", dumpS c.service_file),
   ("secrets", .list (c.secrets.map .str)),
   ("branch", dumpS c.branch),
   ("revision", dumpS c.revision),
   ("clone_depth", match c.clone_depth with
      | Option.none => .none
      | some n => .int n),
   ("host", dumpS c.host),
   ("port", .int c.port),
   ("run_migrations", .bool c.run_migrations),
   ("collect_static_files", .bool c.collect_static_files),
   ("releases_dir", dumpS c.releases_dir),
   ("current_dir", dumpS c.current_dir),
   ("shared_dir", dumpS c.shared_dir),
   ("python_path", dumpS c.python_path),
   ("env_vars", .dict (c.env_vars.map (fun kv => (kv.1, .str kv.2)))),
   ("service_file_name", dumpS c.service_file_name)]

/-- `PystranoConfig.update_dict`: dump the current state, overlay the
partial mapping, re-validate the whole merged payload, and only then
replace every field with the validated result.  An error leaves the
original untouched (the caller keeps `c`). -/
def update_dict (c : PystranoConfig) (data : RawMap) : Except PyErr PystranoConfig :=
  model_validate (dictUpdate (model_dump c) data)

/-- The state after `update_dict` returns or raises: the validated
record on success, the unchanged original on error. -/
def update_apply (c : PystranoConfig) (data : RawMap) : PystranoConfig :=
  match update_dict c data with
  | .ok u => u
  | .error _ => c

/-- The contents of the dotenv files visible to `_load_env_file`: a map
from file name to parsed key/value pairs (the `dotenv_values` oracle). -/
abbrev EnvFS := String → List (String × String)

/-- `_load_env_file` applied to a named env file: every value is
shell-escaped with `shlex.quote`. -/
def loadEnvFile (fs : EnvFS) (file : String) : List (String × String) :=
  (fs file).map (fun kv => (kv.1, shlexQuote kv.2))

/-- `PystranoConfig.finalize_config`.  The source is a sequence of
attribute assignments whose reads (`project_user`, `project_root`,
`venv_dir`, `env_file`, `service_file`) are all taken before any block
overwrites them (block 1 rewrites `project_root` but is also its only
reader; block 2 likewise for `venv_dir`), so it is equivalently a single
simultaneous record update, which is how it is rendered here. -/
def finalize_config (fs : EnvFS) (c : PystranoConfig) : PystranoConfig :=
  let cond1 := truthyS c.project_user && truthyS c.project_root
  let pr := if pyIsAbs (optS c.project_root) then optS c.project_root
            else pyPathJoin (pyPathJoin "/home" (optS c.project_user)) (optS c.project_root)
  let cond2 := truthyS c.project_user && truthyS c.venv_dir
  let vd := if pyIsAbs (optS c.venv_dir) then optS c.venv_dir
            else pyPathJoin (pyPathJoin "/home" (optS c.project_user)) (optS c.venv_dir)
  { c with
    project_root := if cond1 then some pr else c.project_root,
    releases_dir := if cond1 then some (pyPathJoin pr "releases") else Option.none,
    current_dir := if cond1 then some (pyPathJoin pr "current") else Option.none,
    shared_dir := if cond1 then some (pyPathJoin pr "shared") else Option.none,
    venv_dir := if cond2 then some vd else c.venv_dir,
    python_path := if cond2 then some (pyPathJoin (pyPathJoin vd "bin") "python")
                   else Option.none,
    env_vars := if truthyS c.env_file then loadEnvFile fs (optS c.env_file) else [],
    service_file_name := if truthyS c.service_file then some (pyBasename (optS c.service_file))
                         else Option.none }

/-! ## Remote operations (`pystrano/core.py`) -/

/-- A remote shell action issued by the operation library, rendered
symbolically: each constructor stands for the exact command string the
source formats (shown in its doc), with the interpolated arguments kept
as fields. -/
inductive RemoteCmd where
  /-- `mkdir -p {dir}` (`setup_release_dir`). -/
  | mkdirP (dir : String)
  /-- `git clone --single-branch [--depth d] [--branch b] url dir`
  (`update_source_code`). -/
  | gitClone (url : Option String) (depth : Option Int) (branch : Option String) (dir : String)
  /-- `git fetch --tags --force` inside `dir`. -/
  | gitFetchTags (dir : String)
  /-- `git checkout {rev}` inside `dir`. -/
  | gitCheckout (rev : String) (dir : String)
  /-- `ln -sfn {src} {dst}` (`setup_symlinks`, `update_symlink`,
  `link_secrets_to_release`). -/
  | lnSfn (src dst : String)
  /-- `{venv}/bin/pip install -r requirements.txt` inside `dir`. -/
  | pipInstall (pip : String) (dir : String)
  /-- `{python} manage.py {sub}` inside `dir` with env injection. -/
  | manage (python sub : String) (env : List (String × String)) (dir : String)
  /-- `systemctl restart {unit}` via sudo (`restart_service`). -/
  | systemctlRestart (unit : String)
  /-- `ls -1 {dir}` (`cleanup_old_releases`). -/
  | lsDir (dir : String)
  /-- `rm -rf {path}` (`cleanup_old_releases`). -/
  | rmRf (path : String)
  /-- `connection.put(local, remote)` (`copy_env_file`). -/
  | putFile (localPath remotePath : String)
deriving DecidableEq, Repr

/-- `cleanup_old_releases`, as a function of `keep_releases` and the
stdout of `ls -1 {releases_dir}`: the list of release names it removes.
`keep_releases <= 0` removes nothing; otherwise, when the listing is
longer than `keep_releases`, Python's `releases[:-keep]` removes the
leading entries, keeping the last `keep` **in listing order** (the
function performs no sorting of its own). -/
def cleanup_old_releases (keep_releases : Int) (stdout : String) : List String :=
  if keep_releases ≤ 0 then []
  else
    let releases := pySplitWs stdout
    if keep_releases < (releases.length : Int) then
      releases.take (releases.length - keep_releases.toNat)
    else []

/-- Lexicographic order on character lists, by code point. -/
def lexLe : List Char → List Char → Bool
  | [], _ => true
  | _ :: _, [] => false
  | a :: as, b :: bs => if a = b then lexLe as bs else decide (a < b)

/-- Lexicographic order on strings — what sorting the release listing
means, since release names are sortable timestamps. -/
def strLe (a b : String) : Bool := lexLe a.data b.data

/-- The behaviour §4.3 of the spec describes for pruning: sort the
listing (lexicographically, which for the timestamp names is
chronologically) and remove all but the `keep` most recent. -/
def specPrune (keep : Int) (listing : List String) : List String :=
  if keep ≤ 0 then []
  else (listing.insertionSort (fun a b => strLe a b = true)).take
    (listing.length - keep.toNat)

/-! ## The configuration loader (`pystrano/config/loader.py`) -/

/-- `DeploymentConfigFile`: the validated top-level document. -/
structure DeploymentConfigFile where
  common : RawMap
  servers : List RawMap
deriving Repr

/-- Interpret a parsed YAML value as a `dict`, as the pydantic
`dict[str, Any]` fields of `DeploymentConfigFile` require. -/
def asRawMap (loc : String) (v : PyVal) : Except String RawMap :=
  match v with
  | .dict kvs => .ok kvs
  | _ => .error (loc ++ ": Input should be a valid dictionary")

/-- `DeploymentConfigFile.model_validate`: the document must be a
mapping with exactly the keys `common` (a mapping) and `servers` (a list
of mappings); anything else is a validation error. -/
def validateDeploymentFile (doc : PyVal) : Except String DeploymentConfigFile :=
  match doc with
  | .dict kvs =>
      match kvs.find? (fun kv => kv.1 != "common" && kv.1 != "servers") with
      | some kv => .error (kv.1 ++ ": Extra inputs are not permitted")
      | Option.none => do
          let commonV ← match rawGet kvs "common" with
            | some v => Except.ok v
            | Option.none => Except.error "common: Field required"
          let serversV ← match rawGet kvs "servers" with
            | some v => Except.ok v
            | Option.none => Except.error "servers: Field required"
          let common ← asRawMap "common" commonV
          let servers ← match serversV with
            | .list xs => xs.mapM (asRawMap "servers")
            | _ => Except.error "servers: Input should be a valid list"
          pure { common, servers }
  | _ => .error "<root>: Input should be a valid dictionary"

/-- The label used for a failing server: its raw `host` entry, or the
`<unknown>` placeholder (`server_description.get("host", "<unknown>")`). -/
def hostLabel (server : RawMap) : String :=
  match rawGet server "host" with
  | Option.none => "<unknown>"
  | some v => pyStr v

/-- The `ValueError` message `create_server_config` wraps a pydantic
validation failure in. -/
def serverErrMsg (host details : String) : String :=
  "Invalid server config for \x27" ++ host ++ "\x27: " ++ details

/-- `create_server_config`: shallow-merge `common` under the per-server
overrides, validate, wrap a `ValidationError` with the server's host (a
`TypeError` propagates), and finalize the successful record. -/
def create_server_config (fs : EnvFS) (server_description common_config : RawMap) :
    Except PyErr PystranoConfig :=
  let merged := dictUpdate common_config server_description
  match model_validate merged with
  | .error (.valueError details) =>
      .error (.valueError (serverErrMsg (hostLabel server_description) details))
  | .error (.typeError m) => .error (.typeError m)
  | .ok config => .ok (finalize_config fs config)

/-- The `ValueError` message `load_config` wraps a per-server failure
in: it names the zero-based index in `servers`. -/
def loadAtMsg (config_path : String) (index : Nat) (inner : String) : String :=
  "Invalid deployment config \x27" ++ config_path ++ "\x27 at servers[" ++ toString index
    ++ "]: " ++ inner

/-- The loop of `load_config` over `enumerate(config_file.servers)`:
build each server config in order, wrapping the first `ValueError` with
the failing index and aborting (all-or-nothing). -/
def loadServers (fs : EnvFS) (config_path : String) (common : RawMap) :
    Nat → List RawMap → Except PyErr (List PystranoConfig)
  | _, [] => .ok []
  | index, server :: rest =>
      match create_server_config fs server common with
      | .ok c => (loadServers fs config_path common (index + 1) rest).map (c :: ·)
      | .error (.valueError m) => .error (.valueError (loadAtMsg config_path index m))
      | .error (.typeError m) => .error (.typeError m)

/-- `load_config`: `parsed` is the result of `yaml.safe_load` on the
file (`Option.none` models an empty document).  An empty document, an
invalid top-level shape and an empty `servers` list are rejected;
otherwise every server is built via `create_server_config`. -/
def load_config (fs : EnvFS) (config_path : String) (parsed : Option PyVal) :
    Except PyErr (List PystranoConfig) :=
  match parsed with
  | Option.none =>
      .error (.valueError ("Config file \x27" ++ config_path ++ "\x27 is empty."))
  | some doc =>
      match validateDeploymentFile doc with
      | .error details =>
          .error (.valueError ("Invalid deployment config \x27" ++ config_path ++ "\x27: "
            ++ details))
      | .ok config_file =>
          if config_file.servers.isEmpty then
            .error (.valueError ("Invalid deployment config \x27" ++ config_path
              ++ "\x27: \x27servers\x27 must not be empty."))
          else
            loadServers fs config_path config_file.common 0 config_file.servers

/-! ## The deploy orchestrator (`pystrano/deploy.py`)

`deploy` iterates the server list inside a single `try`: for each server
it runs the fixed step sequence, and the first exception anywhere makes
the whole run log `"Error deploying"` and call `exit(1)`.  The model
records which steps complete (`DeployEvent.ok`), which step raised
(`DeployEvent.failed`) and whether the run finished (`true`) or aborted
via `exit(1)` (`false`); which step raises is an oracle `fails` over
(server index, step). -/

/-- The steps of the per-server deploy sequence, in source order. -/
inductive DeployStep where
  | connect
  | setupReleaseDir
  | updateSourceCode
  | copyEnvFile
  | setupSymlinks
  | installRequirements
  | linkSecrets
  | collectStatic
  | migrate
  | promoteRelease
  | restartService
  | cleanupOldReleases
deriving DecidableEq, Repr

/-- Position of a step in the deploy sequence. -/
def stepRank : DeployStep → Nat
  | .connect => 0
  | .setupReleaseDir => 1
  | .updateSourceCode => 2
  | .copyEnvFile => 3
  | .setupSymlinks => 4
  | .installRequirements => 5
  | .linkSecrets => 6
  | .collectStatic => 7
  | .migrate => 8
  | .promoteRelease => 9
  | .restartService => 10
  | .cleanupOldReleases => 11

/-- The step sequence `deploy` attempts for one server, with the
source's conditionals: secrets linking when `secrets` is truthy, static
collection and migrations on their flags, service restart when
`service_file` is truthy. -/
def deploySteps (c : PystranoConfig) : List DeployStep :=
  [.connect, .setupReleaseDir, .updateSourceCode, .copyEnvFile, .setupSymlinks,
   .installRequirements]
  ++ (if !c.secrets.isEmpty then [.linkSecrets] else [])
  ++ (if c.collect_static_files then [.collectStatic] else [])
  ++ (if c.run_migrations then [.migrate] else [])
  ++ [.promoteRelease]
  ++ (if truthyS c.service_file then [.restartService] else [])
  ++ [.cleanupOldReleases]

/-- One observable event of a deploy run. -/
inductive DeployEvent where
  | ok (server : Nat) (step : DeployStep)
  | failed (server : Nat) (step : DeployStep)
deriving DecidableEq, Repr

def evServer : DeployEvent → Nat
  | .ok i _ => i
  | .failed i _ => i

def evStep : DeployEvent → DeployStep
  | .ok _ s => s
  | .failed _ s => s

/-- Lexicographic (server, step-position) key of an event. -/
def evKey (e : DeployEvent) : Nat := evServer e * 100 + stepRank (evStep e)

/-- Run the step list of server `i` until the first raising step: the
events, paired with `true` when all steps completed. -/
def runServer (fail : DeployStep → Bool) (i : Nat) :
    List DeployStep → List DeployEvent × Bool
  | [] => ([], true)
  | s :: rest =>
      if fail s then ([.failed i s], false)
      else
        let r := runServer fail i rest
        (.ok i s :: r.1, r.2)

/-- The `for server_config in server_configurations` loop of `deploy`,
starting at server index `i`: the first exception escapes the loop (the
surrounding `except` logs and exits 1, so nothing later runs). -/
def deployGo (fails : Nat → DeployStep → Bool) :
    Nat → List PystranoConfig → List DeployEvent × Bool
  | _, [] => ([], true)
  | i, c :: rest =>
      let r := runServer (fails i) i (deploySteps c)
      if r.2 then
        let r2 := deployGo fails (i + 1) rest
        (r.1 ++ r2.1, r2.2)
      else r

/-- A whole deploy run over a server list: the event trace and whether
the run completed (`false` = aborted with exit code 1). -/
def deployRun (fails : Nat → DeployStep → Bool) (cfgs : List PystranoConfig) :
    List DeployEvent × Bool :=
  deployGo fails 0 cfgs

/-- The release directory `deploy` computes for a server:
`f"{server_config.releases_dir}/{timestamp}"`. -/
def newReleaseDir (c : PystranoConfig) (timestamp : String) : String :=
  optS c.releases_dir ++ "/" ++ timestamp

/-- The remote commands each deploy step issues for config `c` and
release directory `nrd`, straight from the helpers in `core.py`
(`lsOut` is the stdout `ls -1 {releases_dir}` returns during pruning). -/
def deployStepCmds (c : PystranoConfig) (nrd lsOut : String) : DeployStep → List RemoteCmd
  | .connect => []
  | .setupReleaseDir => [.mkdirP nrd]
  | .updateSourceCode =>
      [.gitClone c.source_code_url
        (if truthyI c.clone_depth then c.clone_depth else Option.none)
        (if truthyS c.branch then c.branch else Option.none) nrd]
      ++ (if truthyS c.revision then
            [.gitFetchTags nrd, .gitCheckout (optS c.revision) nrd]
          else [])
  | .copyEnvFile =>
      [.putFile (optS c.env_file) (optS c.shared_dir ++ "/.env." ++ pyBasename nrd)]
  | .setupSymlinks =>
      [.lnSfn (optS c.shared_dir ++ "/media") (nrd ++ "/media"),
       .lnSfn (optS c.shared_dir ++ "/.env." ++ pyBasename nrd) (optS c.shared_dir ++ "/.env")]
  | .installRequirements => [.pipInstall (optS c.venv_dir ++ "/bin/pip") nrd]
  | .linkSecrets =>
      c.secrets.map (fun secret =>
        .lnSfn (optS c.shared_dir ++ "/" ++ pyBasename secret)
          (nrd ++ "/" ++ pyBasename secret))
  | .collectStatic =>
      [.manage (optS c.python_path) "collectstatic --noinput" c.env_vars nrd]
  | .migrate => [.manage (optS c.python_path) "migrate" c.env_vars nrd]
  | .promoteRelease => [.lnSfn nrd (optS c.current_dir)]
  | .restartService => [.systemctlRestart (optS c.service_file_name)]
  | .cleanupOldReleases =>
      if c.keep_releases ≤ 0 then []
      else .lsDir (optS c.releases_dir)
        :: (cleanup_old_releases c.keep_releases lsOut).map
             (fun release => .rmRf (optS c.releases_dir ++ "/" ++ release))

/-- Command trace of one server's run, truncated at the first raising
step (the raising helper's commands are not re-issued or followed by
cleanup of any kind). -/
def runServerCmds (fail : DeployStep → Bool) (cmds : DeployStep → List RemoteCmd) :
    List DeployStep → List RemoteCmd × Bool
  | [] => ([], true)
  | s :: rest =>
      if fail s then ([], false)
      else
        let r := runServerCmds fail cmds rest
        (cmds s ++ r.1, r.2)

/-- Command trace of a whole deploy run (same timestamp for every
server, as `deploy` computes it once per invocation). -/
def deployGoCmds (fails : Nat → DeployStep → Bool) (timestamp lsOut : String) :
    Nat → List PystranoConfig → List RemoteCmd × Bool
  | _, [] => ([], true)
  | i, c :: rest =>
      let r := runServerCmds (fails i) (deployStepCmds c (newReleaseDir c timestamp) lsOut)
        (deploySteps c)
      if r.2 then
        let r2 := deployGoCmds fails timestamp lsOut (i + 1) rest
        (r.1 ++ r2.1, r2.2)
      else r

def deployRunCmds (fails : Nat → DeployStep → Bool) (cfgs : List PystranoConfig)
    (timestamp lsOut : String) : List RemoteCmd × Bool :=
  deployGoCmds fails timestamp lsOut 0 cfgs

/-- Whether a remote command replaces or removes the directory entry at
path `p`: an `ln -sfn` with `p` as its link target replaces it; an
`rm -rf` of `p` or of a tree containing `p` removes it.  The other
commands of the deploy flow (`mkdir -p`, `git clone/fetch/checkout`,
`pip install`, `manage.py`, `put`, `ls`, `systemctl restart`) create or
modify file contents but never replace an existing symlink entry at a
distinct path. -/
def cmdReplacesEntry (cmd : RemoteCmd) (p : String) : Prop :=
  match cmd with
  | .lnSfn _ dst => p = dst
  | .rmRf q => p = q ∨ ∃ r, p = q ++ "/" ++ r
  | _ => False

/-! ## Auxiliary lemmas about strings and paths -/

theorem str_append_cancel_left {s a b : String} (h : s ++ a = s ++ b) : a = b := by
  apply String.ext
  have hd := congrArg String.data h
  rw [String.data_append, String.data_append] at hd
  exact List.append_cancel_left hd

theorem ne_current_releases (pr u : String) :
    pr ++ "/current" ≠ pr ++ ("/releases" ++ u) := by
  intro h
  have hd := congrArg String.data (str_append_cancel_left h)
  rw [String.data_append] at hd
  rw [show ("/current" : String).data = ['/', 'c', 'u', 'r', 'r', 'e', 'n', 't'] from rfl,
      show ("/releases" : String).data = ['/', 'r', 'e', 'l', 'e', 'a', 's', 'e', 's'] from rfl]
    at hd
  simp at hd

theorem ne_current_shared (pr u : String) :
    pr ++ "/current" ≠ pr ++ ("/shared" ++ u) := by
  intro h
  have hd := congrArg String.data (str_append_cancel_left h)
  rw [String.data_append] at hd
  rw [show ("/current" : String).data = ['/', 'c', 'u', 'r', 'r', 'e', 'n', 't'] from rfl,
      show ("/shared" : String).data = ['/', 's', 'h', 'a', 'r', 'e', 'd'] from rfl] at hd
  simp at hd

theorem pyIsAbs_append_left {a : String} (b : String) (h : pyIsAbs a = true) :
    pyIsAbs (a ++ b) = true := by
  unfold pyIsAbs at *
  rw [String.data_append, List.head?_append]
  rw [beq_iff_eq] at h ⊢
  rw [h]
  rfl

theorem pyIsAbs_join {a : String} (b : String) (h : pyIsAbs a = true) :
    pyIsAbs (pyPathJoin a b) = true := by
  unfold pyPathJoin
  split
  · assumption
  · split
    · exact pyIsAbs_append_left b h
    · exact pyIsAbs_append_left b (pyIsAbs_append_left "/" h)

theorem pyIsAbs_home_join (u v : String) :
    pyIsAbs (pyPathJoin (pyPathJoin "/home" u) v) = true :=
  pyIsAbs_join v (pyIsAbs_join u (by rfl))

theorem truthy_of_abs {s : String} (h : pyIsAbs s = true) : (s != "") = true := by
  simp only [bne_iff_ne, ne_eq]
  intro heq
  subst heq
  simp [pyIsAbs] at h

theorem ite_root_abs (r u : String) :
    pyIsAbs (if pyIsAbs r then r else pyPathJoin (pyPathJoin "/home" u) r) = true := by
  split
  · assumption
  · exact pyIsAbs_home_join u r

/-! ## Auxiliary lemmas about the deploy trace -/

theorem deploySteps_pairwise (c : PystranoConfig) :
    (deploySteps c).Pairwise (fun a b => stepRank a < stepRank b) := by
  unfold deploySteps
  split_ifs <;> decide

theorem deploySteps_nodup (c : PystranoConfig) : (deploySteps c).Nodup :=
  (deploySteps_pairwise c).imp (fun h => by rintro rfl; exact absurd h (lt_irrefl _))

theorem sub_install_promote (c : PystranoConfig) :
    [DeployStep.installRequirements, DeployStep.promoteRelease].Sublist (deploySteps c) := by
  unfold deploySteps
  split_ifs <;> decide

theorem sub_promote_restart (c : PystranoConfig) :
    [DeployStep.promoteRelease, DeployStep.restartService].Sublist (deploySteps c)
      ∨ DeployStep.restartService ∉ deploySteps c := by
  unfold deploySteps
  split_ifs <;> decide

theorem stepRank_le (s : DeployStep) : stepRank s ≤ 11 := by
  cases s <;> decide

theorem mem_takeWhile_of_sublist {α : Type} [DecidableEq α] {a b : α} {l : List α}
    (p : α → Bool) (hnd : l.Nodup) (hsub : [a, b].Sublist l) (hb : b ∈ l.takeWhile p) :
    a ∈ l.takeWhile p := by
  induction l with
  | nil => cases hsub
  | cons x xs ih =>
      rcases List.nodup_cons.mp hnd with ⟨hx, hxs⟩
      by_cases hpx : p x = true
      · rw [List.takeWhile_cons_of_pos hpx] at hb ⊢
        cases hsub with
        | cons _ hsub' =>
            rcases List.mem_cons.mp hb with hbx | hb'
            · subst hbx
              exact absurd (List.Sublist.mem (by simp) hsub') hx
            · exact List.mem_cons_of_mem _ (ih hxs hsub' hb')
        | cons₂ _ _ => exact List.mem_cons_self _ _
      · rw [List.takeWhile_cons_of_neg hpx] at hb
        cases hb

theorem runServer_cons_pos {fail : DeployStep → Bool} {i : Nat} {t : DeployStep}
    {rest : List DeployStep} (hft : fail t = true) :
    runServer fail i (t :: rest) = ([DeployEvent.failed i t], false) := by
  simp [runServer, hft]

theorem runServer_cons_neg {fail : DeployStep → Bool} {i : Nat} {t : DeployStep}
    {rest : List DeployStep} (hft : fail t = false) :
    runServer fail i (t :: rest)
      = (DeployEvent.ok i t :: (runServer fail i rest).1, (runServer fail i rest).2) := by
  simp [runServer, hft]

theorem runServer_mem {fail : DeployStep → Bool} {i : Nat} {steps : List DeployStep}
    {e : DeployEvent} (h : e ∈ (runServer fail i steps).1) :
    evServer e = i ∧ evStep e ∈ steps := by
  induction steps with
  | nil => cases h
  | cons t rest ih =>
      by_cases hft : fail t = true
      · rw [runServer_cons_pos hft] at h
        rcases List.mem_singleton.mp h with rfl
        exact ⟨rfl, List.mem_cons_self _ _⟩
      · rw [runServer_cons_neg (Bool.not_eq_true _ ▸ hft)] at h
        rcases List.mem_cons.mp h with rfl | h'
        · exact ⟨rfl, List.mem_cons_self _ _⟩
        · rcases ih h' with ⟨h1, h2⟩
          exact ⟨h1, List.mem_cons_of_mem _ h2⟩

theorem runServer_ok_mem {fail : DeployStep → Bool} {i j : Nat} {steps : List DeployStep}
    {s : DeployStep} (h : DeployEvent.ok j s ∈ (runServer fail i steps).1) :
    j = i ∧ s ∈ steps.takeWhile (fun t => !fail t) := by
  induction steps with
  | nil => cases h
  | cons t rest ih =>
      by_cases hft : fail t = true
      · rw [runServer_cons_pos hft] at h
        cases List.mem_singleton.mp h
      · have hft' : fail t = false := by
          cases hfc : fail t
          · rfl
          · exact absurd hfc hft
        rw [runServer_cons_neg hft'] at h
        rw [List.takeWhile_cons_of_pos (p := fun u => !fail u) (by simp [hft'])]
        rcases List.mem_cons.mp h with heq | h'
        · injection heq with hj hs
          subst hj
          subst hs
          exact ⟨rfl, List.mem_cons_self _ _⟩
        · rcases ih h' with ⟨hj, hmem⟩
          exact ⟨hj, List.mem_cons_of_mem _ hmem⟩

theorem runServer_ok_intro {fail : DeployStep → Bool} {i : Nat} {steps : List DeployStep}
    {s : DeployStep} (h : s ∈ steps.takeWhile (fun t => !fail t)) :
    DeployEvent.ok i s ∈ (runServer fail i steps).1 := by
  induction steps with
  | nil => cases h
  | cons t rest ih =>
      cases hft : fail t with
      | true =>
          rw [List.takeWhile_cons_of_neg (p := fun u => !fail u) (by simp [hft])] at h
          cases h
      | false =>
          rw [List.takeWhile_cons_of_pos (p := fun u => !fail u) (by simp [hft])] at h
          rw [runServer_cons_neg hft]
          rcases List.mem_cons.mp h with rfl | h'
          · exact List.mem_cons_self _ _
          · exact List.mem_cons_of_mem _ (ih h')

theorem runServer_pairwise {fail : DeployStep → Bool} {i : Nat} {steps : List DeployStep}
    (h : steps.Pairwise (fun a b => stepRank a < stepRank b)) :
    (runServer fail i steps).1.Pairwise (fun a b => evKey a < evKey b) := by
  induction steps with
  | nil => exact List.Pairwise.nil
  | cons t rest ih =>
      rcases List.pairwise_cons.mp h with ⟨hhead, htail⟩
      by_cases hft : fail t = true
      · rw [runServer_cons_pos hft]
        simp
      · have hft' : fail t = false := by
          cases hfc : fail t
          · rfl
          · exact absurd hfc hft
        rw [runServer_cons_neg hft']
        refine List.pairwise_cons.mpr ⟨?_, ih htail⟩
        intro e he
        rcases runServer_mem he with ⟨hsrv, hstep⟩
        have h3 := hhead _ hstep
        have h1 : evKey (DeployEvent.ok i t) = i * 100 + stepRank t := rfl
        have h2 : evKey e = evServer e * 100 + stepRank (evStep e) := rfl
        rw [h1, h2, hsrv]
        omega

theorem runServer_failed {fail : DeployStep → Bool} {i j : Nat} {steps : List DeployStep}
    {s : DeployStep} (h : DeployEvent.failed j s ∈ (runServer fail i steps).1) :
    (runServer fail i steps).2 = false
      ∧ (runServer fail i steps).1.getLast? = some (DeployEvent.failed j s) := by
  induction steps with
  | nil => cases h
  | cons t rest ih =>
      by_cases hft : fail t = true
      · rw [runServer_cons_pos hft] at h ⊢
        have heq := List.mem_singleton.mp h
        injection heq with hj hs
        subst hj
        subst hs
        exact ⟨rfl, rfl⟩
      · have hft' : fail t = false := by
          cases hfc : fail t
          · rfl
          · exact absurd hfc hft
        rw [runServer_cons_neg hft'] at h ⊢
        rcases List.mem_cons.mp h with heq | h'
        · cases heq
        · rcases ih h' with ⟨h1, h2⟩
          refine ⟨h1, ?_⟩
          rw [show DeployEvent.ok i t :: (runServer fail i rest).1
              = [DeployEvent.ok i t] ++ (runServer fail i rest).1 from rfl,
            List.getLast?_append, h2, Option.or_some]

theorem deployGo_cons {fails : Nat → DeployStep → Bool} {i : Nat} {c : PystranoConfig}
    {rest : List PystranoConfig} :
    deployGo fails i (c :: rest)
      = (if (runServer (fails i) i (deploySteps c)).2 then
          ((runServer (fails i) i (deploySteps c)).1 ++ (deployGo fails (i + 1) rest).1,
            (deployGo fails (i + 1) rest).2)
        else runServer (fails i) i (deploySteps c)) := by
  simp [deployGo]

theorem deployGo_mem_server_ge {fails : Nat → DeployStep → Bool} {i : Nat}
    {cfgs : List PystranoConfig} {e : DeployEvent}
    (h : e ∈ (deployGo fails i cfgs).1) : i ≤ evServer e := by
  induction cfgs generalizing i with
  | nil => cases h
  | cons c rest ih =>
      rw [deployGo_cons] at h
      split at h
      · rcases List.mem_append.mp h with h' | h'
        · exact le_of_eq (runServer_mem h').1.symm
        · exact Nat.le_of_succ_le (ih h')
      · exact le_of_eq (runServer_mem h).1.symm

theorem deployGo_pairwise (fails : Nat → DeployStep → Bool) (i : Nat)
    (cfgs : List PystranoConfig) :
    (deployGo fails i cfgs).1.Pairwise (fun a b => evKey a < evKey b) := by
  induction cfgs generalizing i with
  | nil => exact List.Pairwise.nil
  | cons c rest ih =>
      rw [deployGo_cons]
      split
      · refine List.pairwise_append.mpr
          ⟨runServer_pairwise (deploySteps_pairwise c), ih (i + 1), ?_⟩
        intro a ha b hb
        have h1 := (runServer_mem ha).1
        have h2 := deployGo_mem_server_ge hb
        have h3 := stepRank_le (evStep a)
        have ka : evKey a = evServer a * 100 + stepRank (evStep a) := rfl
        have kb : evKey b = evServer b * 100 + stepRank (evStep b) := rfl
        rw [ka, kb, h1]
        omega
      · exact runServer_pairwise (deploySteps_pairwise c)

theorem deployGo_ok_closure {fails : Nat → DeployStep → Bool} {i j : Nat}
    {cfgs : List PystranoConfig} {s s' : DeployStep}
    (hstep : ∀ c : PystranoConfig,
      [s, s'].Sublist (deploySteps c) ∨ s' ∉ deploySteps c)
    (h : DeployEvent.ok j s' ∈ (deployGo fails i cfgs).1) :
    DeployEvent.ok j s ∈ (deployGo fails i cfgs).1 := by
  induction cfgs generalizing i with
  | nil => cases h
  | cons c rest ih =>
      rw [deployGo_cons] at h ⊢
      have hblock : DeployEvent.ok j s' ∈ (runServer (fails i) i (deploySteps c)).1 →
          DeployEvent.ok j s ∈ (runServer (fails i) i (deploySteps c)).1 := by
        intro hin
        rcases runServer_ok_mem hin with ⟨rfl, hmem⟩
        rcases hstep c with hsub | hnot
        · exact runServer_ok_intro
            (mem_takeWhile_of_sublist _ (deploySteps_nodup c) hsub hmem)
        · exact absurd (List.Sublist.mem hmem (List.takeWhile_sublist _)) hnot
      split at h
      · rename_i h2
        rw [if_pos h2]
        rcases List.mem_append.mp h with h' | h'
        · exact List.mem_append.mpr (Or.inl (hblock h'))
        · exact List.mem_append.mpr (Or.inr (ih h'))
      · rename_i h2
        rw [if_neg h2]
        exact hblock h

theorem deployGo_failed {fails : Nat → DeployStep → Bool} {i j : Nat}
    {cfgs : List PystranoConfig} {s : DeployStep}
    (h : DeployEvent.failed j s ∈ (deployGo fails i cfgs).1) :
    (deployGo fails i cfgs).2 = false
      ∧ (deployGo fails i cfgs).1.getLast? = some (DeployEvent.failed j s)
      ∧ ∀ e ∈ (deployGo fails i cfgs).1, evServer e ≤ j := by
  induction cfgs generalizing i with
  | nil => cases h
  | cons c rest ih =>
      rw [deployGo_cons] at h ⊢
      split at h
      · rename_i h2
        rw [if_pos h2]
        rcases List.mem_append.mp h with h' | h'
        · rcases runServer_failed h' with ⟨hfalse, _⟩
          rw [hfalse] at h2
          cases h2
        · rcases ih h' with ⟨h1', h2', h3'⟩
          have hj : i + 1 ≤ j := deployGo_mem_server_ge h'
          refine ⟨h1', ?_, ?_⟩
          · have hne : (deployGo fails (i + 1) rest).1 ≠ [] := by
              intro hnil
              rw [hnil] at h'
              cases h'
            rw [List.getLast?_append, h2', Option.or_some]
          · intro e he
            rcases List.mem_append.mp he with he' | he'
            · have := (runServer_mem he').1
              omega
            · exact h3' e he'
      · rename_i h2
        rw [if_neg h2]
        rcases runServer_failed h with ⟨h1', h2'⟩
        exact ⟨h1', h2', fun e he => le_of_eq ((runServer_mem he).1.trans
          (runServer_mem h).1.symm)⟩

theorem pairwise_key_index {l : List DeployEvent}
    (h : l.Pairwise (fun a b => evKey a < evKey b)) {n m : Nat} {a b : DeployEvent}
    (ha : l[n]? = some a) (hb : l[m]? = some b) (hk : evKey a < evKey b) : n < m := by
  rcases List.getElem?_eq_some_iff.mp ha with ⟨hn, hna⟩
  rcases List.getElem?_eq_some_iff.mp hb with ⟨hm, hmb⟩
  rcases Nat.lt_trichotomy n m with h1 | h1 | h1
  · exact h1
  · subst h1
    rw [hna] at hmb
    subst hmb
    exact absurd hk (lt_irrefl _)
  · have := (List.pairwise_iff_getElem.mp h) m n hm hn h1
    rw [hna, hmb] at this
    omega

theorem deployCmds_only_promote (c : PystranoConfig) (pr ts lsOut : String)
    (hcur : c.current_dir = some (pr ++ "/current"))
    (hrel : c.releases_dir = some (pr ++ "/releases"))
    (hsh : c.shared_dir = some (pr ++ "/shared")) :
    ∀ step cmd, cmd ∈ deployStepCmds c (newReleaseDir c ts) lsOut step →
      cmdReplacesEntry cmd (optS c.current_dir) → step = DeployStep.promoteRelease := by
  intro step cmd hmem hrep
  have hnrd : newReleaseDir c ts = pr ++ "/releases" ++ "/" ++ ts := by
    rw [newReleaseDir, hrel]
    rfl
  rw [hcur] at hrep
  cases step with
  | connect => cases hmem
  | setupReleaseDir =>
      rcases List.mem_singleton.mp hmem with rfl
      exact absurd hrep (by simp [cmdReplacesEntry])
  | updateSourceCode =>
      rw [deployStepCmds] at hmem
      rcases List.mem_append.mp hmem with h' | h'
      · rcases List.mem_singleton.mp h' with rfl
        exact absurd hrep (by simp [cmdReplacesEntry])
      · split at h'
        · rcases List.mem_cons.mp h' with rfl | h''
          · exact absurd hrep (by simp [cmdReplacesEntry])
          · rcases List.mem_singleton.mp h'' with rfl
            exact absurd hrep (by simp [cmdReplacesEntry])
        · cases h'
  | copyEnvFile =>
      rcases List.mem_singleton.mp hmem with rfl
      exact absurd hrep (by simp [cmdReplacesEntry])
  | setupSymlinks =>
      rw [deployStepCmds] at hmem
      rcases List.mem_cons.mp hmem with rfl | h'
      · rw [cmdReplacesEntry, hnrd] at hrep
        simp only [optS, String.append_assoc] at hrep
        exact absurd hrep (ne_current_releases pr _)
      · rcases List.mem_singleton.mp h' with rfl
        rw [cmdReplacesEntry, hsh] at hrep
        simp only [optS, String.append_assoc] at hrep
        exact absurd hrep (ne_current_shared pr _)
  | installRequirements =>
      rcases List.mem_singleton.mp hmem with rfl
      exact absurd hrep (by simp [cmdReplacesEntry])
  | linkSecrets =>
      rw [deployStepCmds] at hmem
      rcases List.mem_map.mp hmem with ⟨secret, _, rfl⟩
      rw [cmdReplacesEntry, hnrd] at hrep
      simp only [String.append_assoc] at hrep
      exact absurd hrep (ne_current_releases pr _)
  | collectStatic =>
      rcases List.mem_singleton.mp hmem with rfl
      exact absurd hrep (by simp [cmdReplacesEntry])
  | migrate =>
      rcases List.mem_singleton.mp hmem with rfl
      exact absurd hrep (by simp [cmdReplacesEntry])
  | promoteRelease => rfl
  | restartService =>
      rcases List.mem_singleton.mp hmem with rfl
      exact absurd hrep (by simp [cmdReplacesEntry])
  | cleanupOldReleases =>
      rw [deployStepCmds] at hmem
      split at hmem
      · cases hmem
      · rcases List.mem_cons.mp hmem with rfl | h'
        · exact absurd hrep (by simp [cmdReplacesEntry])
        · rcases List.mem_map.mp h' with ⟨release, _, rfl⟩
          rw [cmdReplacesEntry, hrel] at hrep
          rcases hrep with hrep | ⟨r, hrep⟩
          · simp only [optS, String.append_assoc] at hrep
            exact absurd hrep (ne_current_releases pr _)
          · simp only [optS, String.append_assoc] at hrep
            exact absurd hrep (ne_current_releases pr _)

theorem runServerCmds_snd {fail : DeployStep → Bool} {cmds : DeployStep → List RemoteCmd}
    {i : Nat} {steps : List DeployStep} :
    (runServerCmds fail cmds steps).2 = (runServer fail i steps).2 := by
  induction steps with
  | nil => rfl
  | cons t rest ih =>
      by_cases hft : fail t = true
      · simp [runServerCmds, runServer, hft]
      · simp only [runServerCmds, runServer, if_neg hft]
        exact ih

theorem deployGoCmds_snd {fails : Nat → DeployStep → Bool} {ts lsOut : String}
    {i : Nat} {cfgs : List PystranoConfig} :
    (deployGoCmds fails ts lsOut i cfgs).2 = (deployGo fails i cfgs).2 := by
  induction cfgs generalizing i with
  | nil => rfl
  | cons c rest ih =>
      simp only [deployGoCmds, deployGo]
      rw [runServerCmds_snd (i := i)]
      split
      · exact ih
      · exact runServerCmds_snd (i := i)

/-! ## Example configurations used by concrete instances -/

/-- A first server, as the loader would produce it for
`host: a.example.com` under `projectUser=web, projectRoot=/srv/app`. -/
def cfgA : PystranoConfig :=
  { host := some "a.example.com", project_user := some "web",
    project_root := some "/srv/app",
    releases_dir := some "/srv/app/releases",
    current_dir := some "/srv/app/current",
    shared_dir := some "/srv/app/shared" }

/-- A second server of the same fleet. -/
def cfgB : PystranoConfig :=
  { cfgA with host := some "b.example.com" }

/-- A failure oracle: creating the release directory raises on the first
server (for example `mkdir` fails on a full disk); everything else
succeeds. -/
def failsCE : Nat → DeployStep → Bool :=
  fun i s => i == 0 && s == DeployStep.setupReleaseDir

/-! ## C1: failure isolation of the deploy orchestrator -/

/-- C1, counterexample.  The claim says a failure before promote-release
triggers a best-effort removal of the partial release directory and that
the run then continues with the next server.  In the code the whole
server loop sits inside one `try`, `try_to_remove_release_dir` is never
called (it is not even imported by `deploy.py`), and the first exception
aborts the run with exit code 1.  Concretely, when `setup_release_dir`
fails on server 0 of a two-server fleet: the trace stops at the failure,
the run aborts, server 1 is never touched, and no command at all (in
particular no `rm -rf` of the release directory) is issued after the
failure. -/
theorem deploy_no_cleanup_no_continue_counterexample :
    (deployRun failsCE [cfgA, cfgB]).1
        = [DeployEvent.ok 0 DeployStep.connect,
           DeployEvent.failed 0 DeployStep.setupReleaseDir]
      ∧ (deployRun failsCE [cfgA, cfgB]).2 = false
      ∧ ((deployRun failsCE [cfgA, cfgB]).1.all (fun e => evServer e == 0)) = true
      ∧ (deployRunCmds failsCE [cfgA, cfgB] "20240101010101" "").1 = []
      ∧ ((deployRunCmds failsCE [cfgA, cfgB] "20240101010101" "").1.all
          (fun cmd => match cmd with
            | RemoteCmd.rmRf _ => false
            | _ => true)) = true := by
  refine ⟨by decide, by decide, by decide, by decide, by decide⟩

/-- C1, amended: if any step fails on one server, the orchestrator
neither removes the partially-created release directory nor continues
with the remaining servers — the failure event is the last event of the
run (no cleanup action of any kind follows it), every processed server
has an index at most the failing one, the command trace is cut off at
the same point, and the run aborts with exit code 1. -/
theorem deploy_failure_aborts_run (fails : Nat → DeployStep → Bool)
    (cfgs : List PystranoConfig) (ts lsOut : String) {i : Nat} {s : DeployStep}
    (h : DeployEvent.failed i s ∈ (deployRun fails cfgs).1) :
    (deployRun fails cfgs).2 = false
      ∧ (deployRun fails cfgs).1.getLast? = some (DeployEvent.failed i s)
      ∧ (∀ e ∈ (deployRun fails cfgs).1, evServer e ≤ i)
      ∧ (deployRunCmds fails cfgs ts lsOut).2 = false := by
  rcases deployGo_failed h with ⟨h1, h2, h3⟩
  exact ⟨h1, h2, h3, by rw [deployRunCmds, deployGoCmds_snd]; exact h1⟩

/-- Witness for the amended C1 theorem at the concrete failing fleet. -/
theorem deploy_failure_aborts_run_witness :
    (DeployEvent.failed 0 DeployStep.setupReleaseDir ∈ (deployRun failsCE [cfgA, cfgB]).1)
      ∧ ((deployRun failsCE [cfgA, cfgB]).2 = false
        ∧ (deployRun failsCE [cfgA, cfgB]).1.getLast?
            = some (DeployEvent.failed 0 DeployStep.setupReleaseDir)
        ∧ (∀ e ∈ (deployRun failsCE [cfgA, cfgB]).1, evServer e ≤ 0)
        ∧ (deployRunCmds failsCE [cfgA, cfgB] "20240101010101" "").2 = false) :=
  ⟨by decide, deploy_failure_aborts_run failsCE [cfgA, cfgB] "20240101010101" "" (by decide)⟩

/-! ## C2: promote-release ordering and exclusive `currentDir` mutation -/

/-- C2: in every deploy run, for every server `i`, promote-release
(`update_symlink`) executes strictly after install-dependencies and
strictly before restart-service: when the promote event is in the trace
the install event is too, and earlier; when the restart event is in the
trace the promote event is too, and earlier.  Moreover, for a finalized
configuration, among all remote commands any deploy step can issue, the
only one that replaces the directory entry at `currentDir` is the
promote step's `ln -sfn {new_release_dir} {current_dir}`, so no other
step mutates `currentDir`. -/
theorem deploy_promote_ordering (fails : Nat → DeployStep → Bool)
    (cfgs : List PystranoConfig) (i : Nat) (c : PystranoConfig) (pr ts lsOut : String)
    (hcur : c.current_dir = some (pr ++ "/current"))
    (hrel : c.releases_dir = some (pr ++ "/releases"))
    (hsh : c.shared_dir = some (pr ++ "/shared")) :
    (DeployEvent.ok i DeployStep.promoteRelease ∈ (deployRun fails cfgs).1 →
        DeployEvent.ok i DeployStep.installRequirements ∈ (deployRun fails cfgs).1)
      ∧ (∀ n m : Nat,
          (deployRun fails cfgs).1[n]? = some (DeployEvent.ok i DeployStep.installRequirements) →
          (deployRun fails cfgs).1[m]? = some (DeployEvent.ok i DeployStep.promoteRelease) →
          n < m)
      ∧ (DeployEvent.ok i DeployStep.restartService ∈ (deployRun fails cfgs).1 →
          DeployEvent.ok i DeployStep.promoteRelease ∈ (deployRun fails cfgs).1)
      ∧ (∀ n m : Nat,
          (deployRun fails cfgs).1[n]? = some (DeployEvent.ok i DeployStep.promoteRelease) →
          (deployRun fails cfgs).1[m]? = some (DeployEvent.ok i DeployStep.restartService) →
          n < m)
      ∧ (∀ step cmd, cmd ∈ deployStepCmds c (newReleaseDir c ts) lsOut step →
          cmdReplacesEntry cmd (optS c.current_dir) → step = DeployStep.promoteRelease)
      ∧ deployStepCmds c (newReleaseDir c ts) lsOut DeployStep.promoteRelease
          = [RemoteCmd.lnSfn (newReleaseDir c ts) (optS c.current_dir)] := by
  refine ⟨?_, ?_, ?_, ?_, deployCmds_only_promote c pr ts lsOut hcur hrel hsh, rfl⟩
  · intro h
    exact deployGo_ok_closure (fun c' => Or.inl (sub_install_promote c')) h
  · intro n m hn hm
    refine pairwise_key_index (deployGo_pairwise fails 0 cfgs) hn hm ?_
    have ha : evKey (DeployEvent.ok i DeployStep.installRequirements) = i * 100 + 5 := rfl
    have hb : evKey (DeployEvent.ok i DeployStep.promoteRelease) = i * 100 + 9 := rfl
    rw [ha, hb]
    omega
  · intro h
    exact deployGo_ok_closure (fun c' => sub_promote_restart c') h
  · intro n m hn hm
    refine pairwise_key_index (deployGo_pairwise fails 0 cfgs) hn hm ?_
    have ha : evKey (DeployEvent.ok i DeployStep.promoteRelease) = i * 100 + 9 := rfl
    have hb : evKey (DeployEvent.ok i DeployStep.restartService) = i * 100 + 10 := rfl
    rw [ha, hb]
    omega

/-- Witness for the C2 theorem: a concrete finalized server, an
all-success oracle, and the resulting instance of the conclusion. -/
theorem deploy_promote_ordering_witness :
    (cfgA.current_dir = some ("/srv/app" ++ "/current")
        ∧ cfgA.releases_dir = some ("/srv/app" ++ "/releases")
        ∧ cfgA.shared_dir = some ("/srv/app" ++ "/shared"))
      ∧ ((DeployEvent.ok 0 DeployStep.promoteRelease
            ∈ (deployRun (fun _ _ => false) [cfgA]).1 →
          DeployEvent.ok 0 DeployStep.installRequirements
            ∈ (deployRun (fun _ _ => false) [cfgA]).1)
        ∧ (∀ n m : Nat,
            (deployRun (fun _ _ => false) [cfgA]).1[n]?
                = some (DeployEvent.ok 0 DeployStep.installRequirements) →
            (deployRun (fun _ _ => false) [cfgA]).1[m]?
                = some (DeployEvent.ok 0 DeployStep.promoteRelease) →
            n < m)
        ∧ (DeployEvent.ok 0 DeployStep.restartService
              ∈ (deployRun (fun _ _ => false) [cfgA]).1 →
            DeployEvent.ok 0 DeployStep.promoteRelease
              ∈ (deployRun (fun _ _ => false) [cfgA]).1)
        ∧ (∀ n m : Nat,
            (deployRun (fun _ _ => false) [cfgA]).1[n]?
                = some (DeployEvent.ok 0 DeployStep.promoteRelease) →
            (deployRun (fun _ _ => false) [cfgA]).1[m]?
                = some (DeployEvent.ok 0 DeployStep.restartService) →
            n < m)
        ∧ (∀ step cmd,
            cmd ∈ deployStepCmds cfgA (newReleaseDir cfgA "20240101010101") "" step →
            cmdReplacesEntry cmd (optS cfgA.current_dir) →
            step = DeployStep.promoteRelease)
        ∧ deployStepCmds cfgA (newReleaseDir cfgA "20240101010101") ""
              DeployStep.promoteRelease
            = [RemoteCmd.lnSfn (newReleaseDir cfgA "20240101010101")
                (optS cfgA.current_dir)]) :=
  ⟨⟨rfl, rfl, rfl⟩,
   deploy_promote_ordering (fun _ _ => false) [cfgA] 0 cfgA "/srv/app" "20240101010101" ""
     rfl rfl rfl⟩

/-! ## C3, C5: validation invariants of the configuration model -/

theorem apply_revision_rules_inv (c : PystranoConfig)
    (htr : truthyS (apply_revision_rules c).revision = true) :
    (apply_revision_rules c).clone_depth = Option.none := by
  unfold apply_revision_rules at htr ⊢
  split at htr
  · rename_i hcond
    rw [if_pos hcond]
  · rename_i hcond
    rw [if_neg hcond]
    cases hcd : c.clone_depth with
    | none => rfl
    | some n =>
        exfalso
        apply hcond
        rw [htr, hcd]
        rfl

theorem model_validate_revision_invariant {payload : RawMap} {u : PystranoConfig}
    (h : model_validate payload = .ok u) :
    truthyS u.revision = true → u.clone_depth = Option.none := by
  unfold model_validate at h
  split at h
  · cases h
  · cases hv : validateFields payload with
    | error e =>
        rw [hv] at h
        cases h
    | ok c =>
        rw [hv] at h
        have hu : u = apply_revision_rules c := by
          cases h
          rfl
        rw [hu]
        exact apply_revision_rules_inv c

/-- C3: `update_dict` re-validates the entire merged record — the
successful result is exactly `model_validate` of the dump overlaid with
the partial mapping, and in particular satisfies the revision/cloneDepth
exclusivity invariant again — and the update is all-or-nothing: on
success every field is replaced by the validated record, on a validation
error the state keeps every field of the original. -/
theorem update_dict_atomic (c : PystranoConfig) (data : RawMap) :
    (∀ u, update_dict c data = .ok u →
        model_validate (dictUpdate (model_dump c) data) = .ok u
          ∧ update_apply c data = u
          ∧ (truthyS u.revision = true → u.clone_depth = Option.none))
      ∧ (∀ e, update_dict c data = .error e → update_apply c data = c) := by
  constructor
  · intro u h
    refine ⟨h, ?_, model_validate_revision_invariant h⟩
    simp [update_apply, h]
  · intro e h
    simp [update_apply, h]

/-- The record the C3 witness mutates: an explicit `clone_depth` of 5
and no revision. -/
def c3base : PystranoConfig := { clone_depth := some 5 }

/-- The record `update_dict` produces when the C3 witness sets only
`revision`: whole-record re-validation also clears `clone_depth`. -/
def c3updated : PystranoConfig := { revision := some "abc", clone_depth := Option.none }

/-- Witness for C3: setting only `revision` on a record whose
`clone_depth` is 5 re-validates the whole record and clears
`clone_depth`; a mapping with an invalid boolean leaves the record
unchanged. -/
theorem update_dict_atomic_witness :
    (update_dict c3base [("revision", PyVal.str "abc")] = .ok c3updated
      ∧ update_apply c3base [("revision", PyVal.str "abc")] = c3updated
      ∧ (truthyS c3updated.revision = true → c3updated.clone_depth = Option.none))
      ∧ (update_dict c3base [("run_migrations", PyVal.str "sometimes")]
          = .error (.valueError "run_migrations: Invalid boolean value: \x27sometimes\x27")
        ∧ update_apply c3base [("run_migrations", PyVal.str "sometimes")] = c3base) := by
  have h1 := (update_dict_atomic c3base [("revision", PyVal.str "abc")]).1
    c3updated (by decide)
  have h2 := (update_dict_atomic c3base [("run_migrations", PyVal.str "sometimes")]).2
    (.valueError "run_migrations: Invalid boolean value: \x27sometimes\x27") (by decide)
  exact ⟨⟨by decide, h1.2.1, h1.2.2⟩, by decide, h2⟩

/-- C5: all coercion rules for `cloneDepth`.  Absent (`None`) and the
empty string give 1; unparseable input (a failing `int(value)`) and
non-positive parses give `None` (absent) — never a validation error,
since `_parse_clone_depth` catches the exception and returns — a
positive integer passes through; and on any constructed record a truthy
`revision` forces `clone_depth` to absent, whatever value was supplied. -/
theorem clone_depth_rules :
    parse_clone_depth PyVal.none = some 1
      ∧ parse_clone_depth (PyVal.str "") = some 1
      ∧ (∀ v : PyVal, v ≠ PyVal.none → v ≠ PyVal.str "" → pyToInt v = Option.none →
          parse_clone_depth v = Option.none)
      ∧ (∀ (v : PyVal) (n : Int), v ≠ PyVal.none → v ≠ PyVal.str "" →
          pyToInt v = some n → n ≤ 0 → parse_clone_depth v = Option.none)
      ∧ (∀ (v : PyVal) (n : Int), v ≠ PyVal.none → v ≠ PyVal.str "" →
          pyToInt v = some n → 0 < n → parse_clone_depth v = some n)
      ∧ (∀ (payload : RawMap) (u : PystranoConfig), model_validate payload = .ok u →
          truthyS u.revision = true → u.clone_depth = Option.none) := by
  have hguard : ∀ v : PyVal, v ≠ PyVal.none → v ≠ PyVal.str "" →
      isNoneOrEmptyStr v = false := by
    intro v h1 h2
    cases v with
    | none => exact absurd rfl h1
    | str s =>
        have hs : s ≠ "" := fun h => h2 (by rw [h])
        exact beq_eq_false_iff_ne.mpr hs
    | bool b => rfl
    | int n => rfl
    | float q => rfl
    | list xs => rfl
    | dict xs => rfl
  refine ⟨rfl, rfl, ?_, ?_, ?_, fun _ _ h => model_validate_revision_invariant h⟩
  · intro v h1 h2 hint
    unfold parse_clone_depth
    rw [hguard v h1 h2, hint]
    rfl
  · intro v n h1 h2 hint hle
    unfold parse_clone_depth
    rw [hguard v h1 h2, hint]
    simp [hle]
  · intro v n h1 h2 hint hpos
    unfold parse_clone_depth
    rw [hguard v h1 h2, hint]
    simp [show ¬(n ≤ 0) from by omega]

/-- Witness for C5 at concrete inputs: the string "abc" is unparseable,
-2 is non-positive, 7 passes through, and supplying `cloneDepth: 9`
together with `revision: "v1"` still yields an absent `clone_depth`. -/
theorem clone_depth_rules_witness :
    ((PyVal.str "abc" ≠ PyVal.none) ∧ (PyVal.str "abc" ≠ PyVal.str "")
        ∧ pyToInt (PyVal.str "abc") = Option.none
        ∧ parse_clone_depth (PyVal.str "abc") = Option.none)
      ∧ (pyToInt (PyVal.int (-2)) = some (-2) ∧ ((-2 : Int) ≤ 0)
        ∧ parse_clone_depth (PyVal.int (-2)) = Option.none)
      ∧ (pyToInt (PyVal.int 7) = some 7 ∧ ((0 : Int) < 7)
        ∧ parse_clone_depth (PyVal.int 7) = some 7)
      ∧ (model_validate [("revision", PyVal.str "v1"), ("clone_depth", PyVal.int 9)]
          = .ok { revision := some "v1", clone_depth := Option.none }
        ∧ truthyS (some "v1") = true
        ∧ ({ revision := some "v1", clone_depth := Option.none }
            : PystranoConfig).clone_depth = Option.none) := by
  have hne1 : PyVal.str "abc" ≠ PyVal.none := fun h => PyVal.noConfusion h
  have hne2 : PyVal.str "abc" ≠ PyVal.str "" := by
    intro h
    injection h with h'
    exact absurd h' (by decide)
  have hne3 : PyVal.int (-2) ≠ PyVal.none := fun h => PyVal.noConfusion h
  have hne4 : PyVal.int (-2) ≠ PyVal.str "" := fun h => PyVal.noConfusion h
  have hne5 : PyVal.int 7 ≠ PyVal.none := fun h => PyVal.noConfusion h
  have hne6 : PyVal.int 7 ≠ PyVal.str "" := fun h => PyVal.noConfusion h
  refine ⟨⟨hne1, hne2, by decide, ?_⟩, ⟨by decide, by decide, ?_⟩,
    ⟨by decide, by decide, ?_⟩, ⟨by decide, by decide, ?_⟩⟩
  · exact clone_depth_rules.2.2.1 (PyVal.str "abc") hne1 hne2 (by decide)
  · exact clone_depth_rules.2.2.2.1 (PyVal.int (-2)) (-2) hne3 hne4 (by decide) (by decide)
  · exact clone_depth_rules.2.2.2.2.1 (PyVal.int 7) 7 hne5 hne6 (by decide) (by decide)
  · exact clone_depth_rules.2.2.2.2.2
      [("revision", PyVal.str "v1"), ("clone_depth", PyVal.int 9)]
      { revision := some "v1", clone_depth := Option.none } (by decide) (by decide)

/-! ## C10: numeric inputs to the boolean coercion -/

/-- C10: `_parse_bool` accepts every int and float by truthiness —
`bool(value)` — so 2 and 2.5 coerce to `true` and 0.0 to `false`, while
the numeric **string** "2" falls through to the token comparison and
raises a validation error: numbers outside {0, 1} are accepted but their
string forms are rejected. -/
theorem parse_bool_numeric :
    (∀ n : Int, parse_bool (PyVal.int n) = .ok (n != 0))
      ∧ (∀ q : Rat, parse_bool (PyVal.float q) = .ok (q != 0))
      ∧ parse_bool (PyVal.int 2) = .ok true
      ∧ parse_bool (PyVal.float (5 / 2)) = .ok true
      ∧ parse_bool (PyVal.float 0) = .ok false
      ∧ parse_bool (PyVal.str "2")
          = .error (.valueError "Invalid boolean value: \x272\x27") := by
  refine ⟨fun _ => rfl, fun _ => rfl, by decide, ?_, ?_, by decide⟩
  · rw [show parse_bool (PyVal.float (5 / 2)) = .ok ((5 / 2 : Rat) != 0) from rfl,
      show ((5 / 2 : Rat) != 0) = true from bne_iff_ne.mpr (by norm_num)]
  · rw [show parse_bool (PyVal.float 0) = .ok ((0 : Rat) != 0) from rfl,
      bne_self_eq_false]

/-! ## C6: pruning old releases -/

/-- C6, counterexample.  The claim says prune sorts the listing and
removes all but the `k` most recent; `cleanup_old_releases` performs no
sort — it removes the leading entries of the listing in the order `ls`
returned them.  On the unsorted listing `["b", "a"]` with
`keep_releases = 1` the code removes `"b"` (the lexicographically
newest) while the claimed sort-then-prune behaviour removes `"a"`. -/
theorem cleanup_no_sort_counterexample :
    cleanup_old_releases 1 "b\na" = ["b"]
      ∧ specPrune 1 (pySplitWs "b\na") = ["a"]
      ∧ cleanup_old_releases 1 "b\na" ≠ specPrune 1 (pySplitWs "b\na") :=
  ⟨by decide, by decide, by decide⟩

/-- C6, amended: with `keep_releases ≤ 0` prune removes nothing; with
`keep_releases = k > 0` it removes all but the **last** `k` entries of
the listing in the order given, performing no sort of its own — which
coincides with the spec\x27s sort-then-keep-most-recent exactly when the
listing is already sorted, as the output of `ls -1` is. -/
theorem cleanup_keeps_last_k (k : Int) (stdout : String) :
    (k ≤ 0 → cleanup_old_releases k stdout = [])
      ∧ (0 < k → cleanup_old_releases k stdout
          = (pySplitWs stdout).take ((pySplitWs stdout).length - k.toNat))
      ∧ (0 < k → (pySplitWs stdout).Sorted (fun a b => strLe a b = true) →
          cleanup_old_releases k stdout = specPrune k (pySplitWs stdout)) := by
  refine ⟨?_, ?_, ?_⟩
  · intro hk
    simp only [cleanup_old_releases, if_pos hk]
  · intro hk
    simp only [cleanup_old_releases, if_neg (show ¬k ≤ 0 from by omega)]
    split
    · rfl
    · rename_i hlen
      rw [show (pySplitWs stdout).length - k.toNat = 0 from by omega, List.take_zero]
  · intro hk hsorted
    have h2 : cleanup_old_releases k stdout
        = (pySplitWs stdout).take ((pySplitWs stdout).length - k.toNat) := by
      simp only [cleanup_old_releases, if_neg (show ¬k ≤ 0 from by omega)]
      split
      · rfl
      · rename_i hlen
        rw [show (pySplitWs stdout).length - k.toNat = 0 from by omega, List.take_zero]
    rw [h2, specPrune, if_neg (show ¬k ≤ 0 from by omega),
      List.Sorted.insertionSort_eq hsorted]

/-- Witness for the amended C6 theorem at `keepReleases = 2` and the
sorted listing of End-to-end scenario 2: exactly `20240101` is
removed. -/
theorem cleanup_keeps_last_k_witness :
    ((0 : Int) < 2
      ∧ (pySplitWs "20240101\n20240102\n20240103").Sorted (fun a b => strLe a b = true))
      ∧ cleanup_old_releases 2 "20240101\n20240102\n20240103"
          = specPrune 2 (pySplitWs "20240101\n20240102\n20240103")
      ∧ cleanup_old_releases 2 "20240101\n20240102\n20240103" = ["20240101"] :=
  ⟨⟨by decide, by decide⟩,
   (cleanup_keeps_last_k 2 "20240101\n20240102\n20240103").2.2 (by decide) (by decide),
   by decide⟩

/-! ## C4: derived filesystem paths -/

/-- A truthy optional string is `some` of a nonempty string. -/
theorem truthyS_some {o : Option String} (h : truthyS o = true) :
    ∃ s, o = some s ∧ (s != "") = true := by
  cases o with
  | none => cases h
  | some s => exact ⟨s, rfl, h⟩

/-- `posixpath.join("/home", u, r)` agrees with the spec formula
`/home/{u}/{r}` whenever `u` is not absolute, does not end in a slash,
and `r` is not absolute. -/
theorem join_home_interpolation (u r : String) (hu1 : pyIsAbs u = false)
    (hu2 : u.data.getLast? ≠ some '/') (hu3 : u ≠ "") (hr : pyIsAbs r = false) :
    pyPathJoin (pyPathJoin "/home" u) r = "/home/" ++ u ++ "/" ++ r := by
  have h1 : pyPathJoin "/home" u = "/home/" ++ u := by
    rw [pyPathJoin, if_neg (by rw [hu1]; exact Bool.false_ne_true),
      if_neg (by decide)]
    rfl
  rw [h1, pyPathJoin, if_neg (by rw [hr]; exact Bool.false_ne_true)]
  have h2 : (("/home/" ++ u : String) == "") = false := by
    have habs : pyIsAbs ("/home/" ++ u) = true := pyIsAbs_append_left u (by rfl)
    have := truthy_of_abs habs
    simpa [bne] using this
  have h3 : (("/home/" ++ u : String).data.getLast? == some '/') = false := by
    rw [String.data_append, List.getLast?_append]
    cases hlast : u.data.getLast? with
    | none =>
        exfalso
        exact hu3 (String.ext (List.getLast?_eq_none_iff.mp hlast))
    | some ch =>
        have hch : ch ≠ '/' := fun hh => hu2 (by rw [hlast, hh])
        simp only [Option.or_some]
        exact beq_eq_false_iff_ne.mpr (by simpa using hch)
  rw [if_neg (by rw [h2, h3]; decide)]

/-- C4, counterexample.  The claim says that when `project_user` or
`project_root` is missing, all four derived fields — `project_root`
included — are absent after finalize.  With `project_user` unset and
`project_root = "/opt/app"`, `finalize_config` leaves `project_root`
at its old value; only the three directory fields are cleared. -/
theorem finalize_missing_user_counterexample :
    ({ project_root := some "/opt/app" } : PystranoConfig).project_user = Option.none
      ∧ (finalize_config (fun _ => []) { project_root := some "/opt/app" }).project_root
          = some "/opt/app"
      ∧ (finalize_config (fun _ => []) { project_root := some "/opt/app" }).project_root
          ≠ Option.none :=
  ⟨rfl, by decide, by decide⟩

/-- C4, amended: when `project_user` and `project_root` are both set
(truthy), finalize rewrites `project_root` to
`posixpath.join("/home", project_user, project_root)` unless it is
already absolute (then it is unchanged), and derives
`releases_dir`/`current_dir`/`shared_dir` by joining the rewritten root
with `releases`/`current`/`shared`; when either is missing, those three
directory fields are absent (`None`, never stale) while `project_root`
keeps its previous value.  The join agrees with the literal
`/home/{user}/{root}` interpolation for any user name that is not
absolute and does not end in a slash. -/
theorem finalize_path_derivation (fs : EnvFS) (c : PystranoConfig) :
    ((truthyS c.project_user && truthyS c.project_root) = true →
        (pyIsAbs (optS c.project_root) = true →
          (finalize_config fs c).project_root = c.project_root)
        ∧ (pyIsAbs (optS c.project_root) = false →
          (finalize_config fs c).project_root
            = some (pyPathJoin (pyPathJoin "/home" (optS c.project_user))
                (optS c.project_root)))
        ∧ (finalize_config fs c).releases_dir
            = some (pyPathJoin (optS (finalize_config fs c).project_root) "releases")
        ∧ (finalize_config fs c).current_dir
            = some (pyPathJoin (optS (finalize_config fs c).project_root) "current")
        ∧ (finalize_config fs c).shared_dir
            = some (pyPathJoin (optS (finalize_config fs c).project_root) "shared"))
      ∧ ((truthyS c.project_user && truthyS c.project_root) = false →
          (finalize_config fs c).releases_dir = Option.none
          ∧ (finalize_config fs c).current_dir = Option.none
          ∧ (finalize_config fs c).shared_dir = Option.none
          ∧ (finalize_config fs c).project_root = c.project_root)
      ∧ (∀ u r : String, pyIsAbs u = false → u.data.getLast? ≠ some '/' →
          u ≠ "" → pyIsAbs r = false →
          pyPathJoin (pyPathJoin "/home" u) r = "/home/" ++ u ++ "/" ++ r) := by
  refine ⟨?_, ?_, join_home_interpolation⟩
  · intro hcond
    have hpr : (finalize_config fs c).project_root
        = some (if pyIsAbs (optS c.project_root) then optS c.project_root
            else pyPathJoin (pyPathJoin "/home" (optS c.project_user))
              (optS c.project_root)) := by
      simp only [finalize_config, hcond, if_true]
    refine ⟨?_, ?_, ?_, ?_, ?_⟩
    · intro habs
      rcases truthyS_some (by exact (Bool.and_eq_true _ _).mp hcond |>.2) with ⟨s, hs, _⟩
      rw [hpr, if_pos habs, hs]
      rfl
    · intro habs
      rw [hpr, if_neg (by rw [habs]; exact Bool.false_ne_true)]
    · rw [hpr]
      simp only [optS, finalize_config, hcond, if_true]
    · rw [hpr]
      simp only [optS, finalize_config, hcond, if_true]
    · rw [hpr]
      simp only [optS, finalize_config, hcond, if_true]
  · intro hcond
    refine ⟨?_, ?_, ?_, ?_⟩ <;>
      simp only [finalize_config, hcond, Bool.false_eq_true, if_false]

/-- Witness for the amended C4 theorem: the spec's own example
(`projectUser = "web"`, relative `projectRoot = "projects/web"`) and a
record with `project_user` missing. -/
theorem finalize_path_derivation_witness :
    ((truthyS (some "web") && truthyS (some "projects/web")) = true
      ∧ pyIsAbs (optS (some "projects/web")) = false
      ∧ (truthyS (Option.none : Option String)
          && truthyS (some "/opt/app")) = false)
      ∧ (finalize_config (fun _ => [])
          { project_user := some "web", project_root := some "projects/web" }).project_root
          = some (pyPathJoin (pyPathJoin "/home" "web") "projects/web")
      ∧ pyPathJoin (pyPathJoin "/home" "web") "projects/web" = "/home/web/projects/web"
      ∧ (finalize_config (fun _ => [])
          { project_user := some "web", project_root := some "projects/web" }).releases_dir
          = some "/home/web/projects/web/releases"
      ∧ (finalize_config (fun _ => [])
          { project_user := some "web", project_root := some "projects/web" }).current_dir
          = some "/home/web/projects/web/current"
      ∧ ((finalize_config (fun _ => []) { project_root := some "/opt/app" }).releases_dir
            = Option.none
        ∧ (finalize_config (fun _ => []) { project_root := some "/opt/app" }).current_dir
            = Option.none
        ∧ (finalize_config (fun _ => []) { project_root := some "/opt/app" }).shared_dir
            = Option.none
        ∧ (finalize_config (fun _ => [])
            { project_root := some "/opt/app" }).project_root
            = ({ project_root := some "/opt/app" } : PystranoConfig).project_root) :=
  ⟨⟨by decide, by decide, by decide⟩,
   ((finalize_path_derivation (fun _ => [])
      { project_user := some "web", project_root := some "projects/web" }).1
        (by decide)).2.1 (by decide),
   by decide, by decide, by decide,
   (finalize_path_derivation (fun _ => []) { project_root := some "/opt/app" }).2.1
     (by decide)⟩

theorem truthyS_some_eq (s : String) : truthyS (some s) = (s != "") := rfl

theorem optS_some (s : String) : optS (some s) = s := rfl

/-! ## C8: idempotence of finalize -/

/-- C8: `finalize_config` is idempotent — running it a second time with
no intervening mutation reproduces the identical record, every derived
field included. -/
theorem finalize_config_idempotent (fs : EnvFS) (c : PystranoConfig) :
    finalize_config fs (finalize_config fs c) = finalize_config fs c := by
  cases ha : truthyS c.project_user with
  | false => simp [finalize_config, ha]
  | true =>
      cases hb : truthyS c.project_root with
      | false =>
          cases hv : truthyS c.venv_dir with
          | false => simp [finalize_config, ha, hb, hv]
          | true =>
              have habs2 := ite_root_abs (optS c.venv_dir) (optS c.project_user)
              have hne2 := truthy_of_abs habs2
              simp [finalize_config, ha, hb, hv, habs2, hne2, truthyS_some_eq, optS_some]
      | true =>
          have habs1 := ite_root_abs (optS c.project_root) (optS c.project_user)
          have hne1 := truthy_of_abs habs1
          cases hv : truthyS c.venv_dir with
          | false =>
              simp [finalize_config, ha, hb, hv, habs1, hne1, truthyS_some_eq, optS_some]
          | true =>
              have habs2 := ite_root_abs (optS c.venv_dir) (optS c.project_user)
              have hne2 := truthy_of_abs habs2
              simp [finalize_config, ha, hb, hv, habs1, hne1, habs2, hne2,
                truthyS_some_eq, optS_some]

/-! ## C9: frame of finalize -/

/-- C9: `finalize_config` modifies at most `project_root`, `venv_dir`,
`releases_dir`, `current_dir`, `shared_dir`, `python_path`, `env_vars`
and `service_file_name`; every other field — `host`, `port`,
`source_code_url`, `branch`, `revision`, `clone_depth`, `keep_releases`,
`system_packages`, `ssh_known_hosts`, `secrets`, `env_file`,
`service_file`, `project_user`, `run_migrations`,
`collect_static_files` — is unchanged. -/
theorem finalize_config_frame (fs : EnvFS) (c : PystranoConfig) :
    (finalize_config fs c).host = c.host
      ∧ (finalize_config fs c).port = c.port
      ∧ (finalize_config fs c).source_code_url = c.source_code_url
      ∧ (finalize_config fs c).branch = c.branch
      ∧ (finalize_config fs c).revision = c.revision
      ∧ (finalize_config fs c).clone_depth = c.clone_depth
      ∧ (finalize_config fs c).keep_releases = c.keep_releases
      ∧ (finalize_config fs c).system_packages = c.system_packages
      ∧ (finalize_config fs c).ssh_known_hosts = c.ssh_known_hosts
      ∧ (finalize_config fs c).secrets = c.secrets
      ∧ (finalize_config fs c).env_file = c.env_file
      ∧ (finalize_config fs c).service_file = c.service_file
      ∧ (finalize_config fs c).project_user = c.project_user
      ∧ (finalize_config fs c).run_migrations = c.run_migrations
      ∧ (finalize_config fs c).collect_static_files = c.collect_static_files :=
  ⟨rfl, rfl, rfl, rfl, rfl, rfl, rfl, rfl, rfl, rfl, rfl, rfl, rfl, rfl, rfl⟩

/-! ## C7: loader error locality and all-or-nothing loading -/

theorem mapM_asRawMap_dict (loc : String) (servers : List RawMap) :
    (servers.map PyVal.dict).mapM (asRawMap loc) = .ok servers := by
  induction servers with
  | nil => rfl
  | cons srv rest ih =>
      rw [List.map_cons, List.mapM_cons]
      show (do
          let ys ← (rest.map PyVal.dict).mapM (asRawMap loc)
          pure (srv :: ys)) = _
      rw [ih]
      rfl

theorem validateDeploymentFile_wellformed (common : RawMap) (servers : List RawMap) :
    validateDeploymentFile (PyVal.dict
        [("common", PyVal.dict common), ("servers", PyVal.list (servers.map PyVal.dict))])
      = .ok { common := common, servers := servers } := by
  show (do
      let s ← (servers.map PyVal.dict).mapM (asRawMap "servers")
      pure (DeploymentConfigFile.mk common s)) = _
  rw [mapM_asRawMap_dict]
  rfl

theorem loadServers_locality (fs : EnvFS) (path : String) (common : RawMap) :
    ∀ (servers : List RawMap) (k i : Nat) (hi : i < servers.length) (m : String),
      (∀ j (hj : j < i), ∃ cj,
        create_server_config fs (servers.get ⟨j, Nat.lt_trans hj hi⟩) common = .ok cj) →
      create_server_config fs (servers.get ⟨i, hi⟩) common = .error (.valueError m) →
      loadServers fs path common k servers
        = .error (.valueError (loadAtMsg path (k + i) m)) := by
  intro servers
  induction servers with
  | nil =>
      intro k i hi
      exact absurd hi (by simp)
  | cons srv rest ih =>
      intro k i hi m hok hbad
      cases i with
      | zero =>
          have hbad0 : create_server_config fs srv common = .error (.valueError m) := hbad
          rw [loadServers, hbad0]
          rfl
      | succ n =>
          obtain ⟨c0, hc0⟩ := hok 0 (Nat.succ_pos n)
          have hc0s : create_server_config fs srv common = .ok c0 := hc0
          rw [loadServers, hc0s]
          have hrec := ih (k + 1) n (Nat.lt_of_succ_lt_succ hi) m
            (fun j hj => hok (j + 1) (Nat.succ_lt_succ hj)) hbad
          rw [hrec, show k + 1 + n = k + (n + 1) from by omega]
          rfl

/-- C7: loading is all-or-nothing with precise error locality.  A
deployment file whose `servers` list is empty is rejected outright.
And whenever the first invalid server sits at zero-based index `i` (all
earlier entries validate, entry `i` fails validation with details `d`),
`load_config` returns — instead of any list of server configurations —
exactly the error that wraps `d` first with that server's `host` (or
the `<unknown>` placeholder) and then with `servers[i]`. -/
theorem load_config_error_locality (fs : EnvFS) (config_path : String)
    (common : RawMap) (servers : List RawMap) :
    (servers = [] →
        load_config fs config_path (some (PyVal.dict
            [("common", PyVal.dict common),
             ("servers", PyVal.list (servers.map PyVal.dict))]))
          = .error (.valueError ("Invalid deployment config \x27" ++ config_path
              ++ "\x27: \x27servers\x27 must not be empty.")))
      ∧ (∀ (i : Nat) (hi : i < servers.length) (d : String),
          (∀ j (hj : j < i), ∃ cj,
            create_server_config fs (servers.get ⟨j, Nat.lt_trans hj hi⟩) common
              = .ok cj) →
          model_validate (dictUpdate common (servers.get ⟨i, hi⟩))
            = .error (.valueError d) →
          load_config fs config_path (some (PyVal.dict
              [("common", PyVal.dict common),
               ("servers", PyVal.list (servers.map PyVal.dict))]))
            = .error (.valueError (loadAtMsg config_path i
                (serverErrMsg (hostLabel (servers.get ⟨i, hi⟩)) d)))) := by
  have hstep : load_config fs config_path (some (PyVal.dict
      [("common", PyVal.dict common),
       ("servers", PyVal.list (servers.map PyVal.dict))]))
      = if servers.isEmpty then
          .error (.valueError ("Invalid deployment config \x27" ++ config_path
            ++ "\x27: \x27servers\x27 must not be empty."))
        else loadServers fs config_path common 0 servers := by
    rw [load_config, validateDeploymentFile_wellformed]
  constructor
  · intro hempty
    subst hempty
    rw [hstep]
    rfl
  · intro i hi d hok hbad
    have hcreate : create_server_config fs (servers.get ⟨i, hi⟩) common
        = .error (.valueError (serverErrMsg (hostLabel (servers.get ⟨i, hi⟩)) d)) := by
      rw [create_server_config, hbad]
    rw [hstep, if_neg (by
      intro hemp
      rw [List.isEmpty_iff.mp hemp] at hi
      cases hi)]
    have := loadServers_locality fs config_path common servers 0 i hi
      (serverErrMsg (hostLabel (servers.get ⟨i, hi⟩)) d) hok hcreate
    rw [this, Nat.zero_add]

/-- The shared defaults of the C7 witness fleet. -/
def c7common : RawMap := [("project_user", PyVal.str "web"), ("project_root", PyVal.str "app")]

/-- The valid first server of the C7 witness fleet. -/
def c7server0 : RawMap := [("host", PyVal.str "a.example.com")]

/-- The invalid second server of the C7 witness fleet: its
`run_migrations` value is not a recognised boolean token. -/
def c7server1 : RawMap :=
  [("host", PyVal.str "b.example.com"), ("run_migrations", PyVal.str "sometimes")]

/-- Witness for C7: a two-server document whose second server is
invalid produces the error naming index 1 and host `b.example.com`, and
no configurations; the empty-servers document is rejected. -/
theorem load_config_error_locality_witness :
    (model_validate (dictUpdate c7common c7server1)
        = .error (.valueError "run_migrations: Invalid boolean value: \x27sometimes\x27"))
      ∧ load_config (fun _ => []) "deployment.yml" (some (PyVal.dict
          [("common", PyVal.dict c7common),
           ("servers", PyVal.list ([c7server0, c7server1].map PyVal.dict))]))
          = .error (.valueError (loadAtMsg "deployment.yml" 1
              (serverErrMsg (hostLabel c7server1)
                "run_migrations: Invalid boolean value: \x27sometimes\x27")))
      ∧ load_config (fun _ => []) "deployment.yml" (some (PyVal.dict
          [("common", PyVal.dict c7common),
           ("servers", PyVal.list (([] : List RawMap).map PyVal.dict))]))
          = .error (.valueError ("Invalid deployment config \x27deployment.yml\x27: "
              ++ "\x27servers\x27 must not be empty.")) := by
  refine ⟨by decide, ?_, ?_⟩
  · have h := (load_config_error_locality (fun _ => []) "deployment.yml" c7common
      [c7server0, c7server1]).2 1 (by decide)
      "run_migrations: Invalid boolean value: \x27sometimes\x27"
      (fun j hj => by
        have hj0 : j = 0 := by omega
        subst hj0
        exact ⟨_, rfl⟩)
      (by decide)
    exact h
  · have h := (load_config_error_locality (fun _ => []) "deployment.yml" c7common []).1 rfl
    rw [h]
    rfl

end Pystrano
